import Mathlib

/-!
Verification of the midistage cue-recall engine and remote-link driver.

Shallow embedding of:
* `src/core/setlists.js` — persisted setlists / entries / routes / hotkeys,
* `src/core/machines.js` — machine records,
* `src/core/model.js` — draft, paste, recall dispatch and the remote key
  state machine,
* `src/remote/remoteDevice.js` and `src/remote/remote.js` — the serial
  remote link.

JavaScript objects become structures with `Option` fields (`none` models an
absent or `null` field), JS numbers on the integer paths become `Int`,
exceptions become `Except` or `Option` results, and the MIDI driver (out of
scope per the spec) becomes an oracle record of `Except`-returning
functions.  File persistence (`save` / `load`) is identity on the in-memory
data and is not modelled.  `setTimeout`-deferred display events are appended
after the synchronous ones; their timing is not modelled.
-/

namespace Midistage

/-- JS string truthiness used as `x ? String(x) : null`: the empty string is
falsy and collapses to `null`. -/
def jsStr : Option String → Option String
  | none => none
  | some s => if s = "" then none else some s

/-- JS `s || d` for an optional string. -/
def jsOrStr (o : Option String) (d : String) : String :=
  match o with
  | none => d
  | some s => if s = "" then d else s

/-- JS truthiness test for an optional string field. -/
def jsTruthy (o : Option String) : Bool :=
  match o with
  | none => false
  | some s => s != ""

/-- `String.prototype.trim`, computed on the character list (ASCII
whitespace). -/
def jsTrim (s : String) : String :=
  String.mk (((s.data.dropWhile Char.isWhitespace).reverse.dropWhile Char.isWhitespace).reverse)

/-- `String.prototype.toUpperCase`, computed on the character list (ASCII). -/
def jsToUpper (s : String) : String :=
  String.mk (s.data.map Char.toUpper)

/-- `s[0]` on a non-empty JS string (the first character). -/
def strFront (s : String) : Char :=
  s.data.headD 'A'

/-- JS `n | 0`: truncation to a signed 32-bit integer. -/
def toInt32 (n : Int) : Int := (n + 2 ^ 31) % 2 ^ 32 - 2 ^ 31

/-- `Math.max(0, Math.min(127, n | 0))` from `normalizeCCSlots` and the CC
dispatch helper. -/
def clamp7 (n : Int) : Int := max 0 (min 127 (toInt32 n))

/-- Helper for `[...new Set(l)]`: keep the first occurrence of each string. -/
def dedupAux (seen : List String) : List String → List String
  | [] => []
  | x :: xs => if x ∈ seen then dedupAux seen xs else x :: dedupAux (x :: seen) xs

/-- `[...new Set(l)]`: deduplicate keeping first occurrences. -/
def dedup (l : List String) : List String := dedupAux [] l

/-- Replace the first element satisfying `p` (the JS code mutates the object
located by `find` / `findIndex` in place). -/
def updateFirst (p : α → Bool) (f : α → α) : List α → List α
  | [] => []
  | x :: xs => if p x then f x :: xs else x :: updateFirst p f xs

/-- Read `obj[k]` from a JS object modelled as an insertion-ordered
association list. -/
def hkLookup (l : List (String × String)) (k : String) : Option String :=
  (l.find? (fun p => p.1 == k)).map (fun p => p.2)

/-- Write `obj[k] = v` on a JS object, keeping insertion order. -/
def assocSet : List (String × String) → String → String → List (String × String)
  | [], k, v => [(k, v)]
  | (k0, v0) :: rest, k, v =>
      if k0 = k then (k, v) :: rest else (k0, v0) :: assocSet rest k v

/-- One CC slot as stored in a route (a `{cc, value}` object in the source). -/
structure CC where
  cc : Int
  value : Int
deriving DecidableEq

/-- A JS route object.  All fields are optional (`none` models an absent or
`null` field).  `cc` and `ccs` are the alternative input spellings consulted
by `normalizeRoute`; `channel` is carried by draft snapshots
(`snapshotSelectionForSetlist`) and dropped by `normalizeRoute`. -/
structure Route where
  machineId : Option String
  midnamFile : Option String
  deviceName : Option String
  bankName : Option String
  msb : Option Int
  lsb : Option Int
  program : Option Int
  patchName : Option String
  ccSlots : Option (List (Option CC))
  cc : Option (List (Option CC))
  ccs : Option (List (Option CC))
  channel : Option Int
deriving DecidableEq

/-- The all-absent route object `{}`. -/
def emptyRoute : Route :=
  { machineId := none, midnamFile := none, deviceName := none, bankName := none,
    msb := none, lsb := none, program := none, patchName := none,
    ccSlots := none, cc := none, ccs := none, channel := none }

/-- `normalizeCCSlots` (setlists.js): drop `null` items, clamp `cc` and
`value` into 0..127 via `|0` truncation, and keep at most 4 slots
(`slice(0, 4)`).  Only the array form is modelled; array-pair and object
items clamp identically in the source.  `null` input stays `null`. -/
def normalizeCCSlots : Option (List (Option CC)) → Option (List (Option CC))
  | none => none
  | some l =>
      some (((l.filterMap id).map (fun c => some (CC.mk (clamp7 c.cc) (clamp7 c.value)))).take 4)

/-- `normalizeRoute` (setlists.js): the stored shape of a route.  The output
object carries exactly the nine persisted fields; the input-only fields
`cc`, `ccs` and `channel` are dropped (`none`).  `msb`, `lsb` and `program`
are plain `Number(...)` conversions with no range clamping. -/
def normalizeRoute (r : Route) : Route :=
  { machineId := jsStr r.machineId,
    midnamFile := jsStr r.midnamFile,
    deviceName := jsStr r.deviceName,
    bankName := jsStr r.bankName,
    msb := r.msb,
    lsb := r.lsb,
    program := r.program,
    patchName := jsStr r.patchName,
    ccSlots :=
      if r.ccSlots.isSome || r.cc.isSome || r.ccs.isSome then
        normalizeCCSlots (if r.ccSlots.isSome then r.ccSlots else if r.cc.isSome then r.cc else r.ccs)
      else none,
    cc := none,
    ccs := none,
    channel := none }

/-- An entry ("cue"): id, name, ordered routes. -/
structure Entry where
  id : String
  name : String
  routes : List Route
deriving DecidableEq

/-- A setlist: id, name, ordered entries, hotkey map (letter to entry id). -/
structure Setlist where
  id : String
  name : String
  entries : List Entry
  hotkeys : List (String × String)
deriving DecidableEq

/-- The persisted setlists document (`{setlists, activeId}`). -/
structure StoreData where
  setlists : List Setlist
  activeId : Option String
deriving DecidableEq

/-- `normalizeEntry` (setlists.js), with the payload fields exploded;
`freshId` stands for the random `makeId("e")` used when the payload has no
id. -/
def normalizeEntry (freshId : String) (id : Option String) (name : Option String)
    (routes : List Route) : Entry :=
  { id := jsOrStr id freshId,
    name := jsOrStr name "Entry",
    routes := routes.map normalizeRoute }

/-- `SetlistsStore.getById`. -/
def storeGetById (d : StoreData) (id : String) : Option Setlist :=
  d.setlists.find? (fun s => s.id == id)

/-- `SetlistsStore.getActive`: `getById(data.activeId) || null`. -/
def storeGetActive (d : StoreData) : Option Setlist :=
  match d.activeId with
  | none => none
  | some id => storeGetById d id

/-- `SetlistsStore.getEntry`. -/
def storeGetEntry (d : StoreData) (sid eid : String) : Option Entry :=
  match storeGetById d sid with
  | none => none
  | some s => s.entries.find? (fun e => e.id == eid)

/-- `SetlistsStore.setActive`. -/
def storeSetActive (d : StoreData) (id : String) : Bool × StoreData :=
  match storeGetById d id with
  | none => (false, d)
  | some _ => (true, { d with activeId := some id })

/-- Replace the routes of entry `eid` inside one setlist object. -/
def setRoutesInEntry (eid : String) (rs : List Route) (s : Setlist) : Setlist :=
  { s with entries :=
      updateFirst (fun e => e.id == eid) (fun e => { e with routes := rs }) s.entries }

/-- Replace the routes of entry `eid` of setlist `sid` (the source mutates
the entry object returned by `getEntry` in place). -/
def setEntryRoutes (d : StoreData) (sid eid : String) (rs : List Route) : StoreData :=
  { d with setlists := updateFirst (fun s => s.id == sid) (setRoutesInEntry eid rs) d.setlists }

/-- `SetlistsStore.addEntry`; `freshId` stands for the generated entry id. -/
def addEntry (d : StoreData) (sid : String) (name : Option String) (routes : List Route)
    (freshId : String) : Option Entry × StoreData :=
  match storeGetById d sid with
  | none => (none, d)
  | some _ =>
    let e := normalizeEntry freshId none name routes
    let push : Setlist → Setlist := fun s => { s with entries := s.entries ++ [e] }
    (some e, { d with setlists := updateFirst (fun s => s.id == sid) push d.setlists })

/-- Core of `SetlistsStore.upsertRoute` on a route list: replace the first
route with the same `machineId`, preserving its `ccSlots` when the new
normalized route omits them, else append (`findIndex`, in-place assignment
and `push` in the source). -/
def upsertRoutes (r : Route) : List Route → List Route
  | [] => [r]
  | x :: xs =>
    if x.machineId == r.machineId then
      (if r.ccSlots = none ∧ x.ccSlots ≠ none then { r with ccSlots := x.ccSlots } else r) :: xs
    else
      x :: upsertRoutes r xs

/-- `SetlistsStore.upsertRoute`. -/
def upsertRoute (d : StoreData) (sid eid : String) (route : Route) : Bool × StoreData :=
  match storeGetEntry d sid eid with
  | none => (false, d)
  | some e =>
    let r := normalizeRoute route
    match r.machineId with
    | none => (false, d)
    | some _ => (true, setEntryRoutes d sid eid (upsertRoutes r e.routes))

/-- `normalizeHotkey` (setlists.js): falsy to `null`, trim, upper-case,
single character with code 65..72 (A..H). -/
def normalizeHotkey (k : Option String) : Option String :=
  match jsStr k with
  | none => none
  | some s =>
    let key := jsToUpper (jsTrim s)
    match key.data with
    | [c] => if 65 ≤ c.toNat ∧ c.toNat ≤ 72 then some key else none
    | _ => none

/-- `SetlistsStore.assignHotkey`. -/
def assignHotkey (d : StoreData) (sid : String) (key : Option String) (eid : String) :
    Bool × StoreData :=
  match storeGetById d sid with
  | none => (false, d)
  | some s =>
    match normalizeHotkey key with
    | none => (false, d)
    | some hk =>
      if (s.entries.find? (fun e => e.id == eid)).isSome then
        if s.hotkeys.any (fun p => p.2 == eid && p.1 != hk) then (false, d)
        else
          let bind : Setlist → Setlist := fun t => { t with hotkeys := assocSet t.hotkeys hk eid }
          (true, { d with setlists := updateFirst (fun t => t.id == sid) bind d.setlists })
      else (false, d)

/-- A machine record as produced by `normalizeMachine` (machines.js): name
defaults to `"Machine"`, `outSlot` is clamped into 1..256 or `null`,
`channel` is clamped into 1..16 (default 1).  The `{ id: "default" }`
fallback object used by `snapshotSelectionForSetlist` has `name := ""` and
`channel := none` (absent fields). -/
structure Machine where
  id : String
  name : String
  midnamFile : Option String
  out : Option String
  outSlot : Option Int
  channel : Option Int
deriving DecidableEq

/-- `MachinesStore.getById`. -/
def machGetById (ms : List Machine) (id : String) : Option Machine :=
  ms.find? (fun m => m.id == id)

/-- The remote menu mode (`this.currentMenu`). -/
inductive Menu
  | main
  | power
deriving DecidableEq

/-- A catalog patch (`{name, program}`). -/
structure MPatch where
  name : Option String
  program : Option Int
deriving DecidableEq

/-- A catalog bank (`{name, msb, lsb, patches}`). -/
structure MBank where
  name : Option String
  msb : Option Int
  lsb : Option Int
  patches : List MPatch
deriving DecidableEq

/-- A loaded midnam model (`{deviceName, banks}`). -/
structure MidnamModel where
  deviceName : String
  banks : List MBank
deriving DecidableEq

/-- One element of `view.list`: global-search results carry
`{bank, patch}` items, bank mode carries the patches themselves. -/
inductive ViewItem
  | globalItem (bank : MBank) (patch : MPatch)
  | patchItem (patch : MPatch)
deriving DecidableEq

/-- A patches view (`{mode, list}`). -/
structure View where
  mode : String
  list : List ViewItem
deriving DecidableEq

/-- One slot record of the midiports store (`{slot, label, port}` in the
midiports.js segment of model.js): a numbered slot, an optional label and
the physical output port name configured for it (`null` when unset). -/
structure PortSlot where
  slot : Int
  label : Option String
  port : Option String
deriving DecidableEq

/-- The in-memory state of a `Model` instance that the verified operations
touch.  `ports` is the `MidiPortsStore._slots` list consulted by
`resolveMachineOut` through `getPort`. -/
structure ModelState where
  store : StoreData
  machines : List Machine
  activeMachineId : Option String
  ports : List PortSlot
  draft : List Route
  currentEntryId : Option String
  currentMenu : Menu
  model : Option MidnamModel
  bankIndex : Nat
  currentMidnamFile : Option String
deriving DecidableEq

/-- `MachinesStore.getActive`: `getById(data.activeId) || null`. -/
def machGetActive (st : ModelState) : Option Machine :=
  match st.activeMachineId with
  | none => none
  | some id => machGetById st.machines id

/-- `MidiPortsStore.getSlot` (midiports.js segment of model.js): find the
slot record by number.  The caller passes a machine's numeric `outSlot`, so
the `Number.isFinite` guard on non-numeric input always passes here. -/
def getSlot (ports : List PortSlot) (slot : Int) : Option PortSlot :=
  ports.find? (fun s => s.slot == slot)

/-- `MidiPortsStore.getPort` (midiports.js segment of model.js):
`s ? (s.port || null) : null` — an unset or empty port collapses to
`null`. -/
def getPort (ports : List PortSlot) (slot : Int) : Option String :=
  match getSlot ports slot with
  | none => none
  | some s => jsStr s.port

/-- `Model.resolveMachineOut`: prefer the `outSlot` indirection when it
yields a truthy port name (`getPort` already collapsed empty ports to
`null`), else fall back to the legacy direct `out` name. -/
def resolveMachineOut (st : ModelState) (m : Machine) : Option String :=
  match m.outSlot with
  | some slot =>
    match getPort st.ports slot with
    | some p => some p
    | none => jsStr m.out
  | none => jsStr m.out

/-- The minimal bank object built by `recallEntry` for the driver. -/
structure DBank where
  name : String
  msb : Option Int
  lsb : Option Int
deriving DecidableEq

/-- The minimal patch object built by `recallEntry` for the driver. -/
structure DPatch where
  name : String
  program : Option Int
deriving DecidableEq

/-- The MIDI driver oracle (out of scope per the spec, §6): `sendPatch`
returns a confirmation string or raises, `sendCC` likewise.  A raising call
is an `Except.error` carrying the exception message. -/
structure MidiEnv where
  sendPatch : Machine → DBank → DPatch → Except String String
  sendCC : Machine → Int → Int → Except String Unit

/-- One observable MIDI dispatch attempt. -/
inductive Attempt
  | patch (m : Machine) (b : DBank) (p : DPatch)
  | ctrl (m : Machine) (ccNum value : Int)
deriving DecidableEq

/-- Is this attempt a `sendPatch` dispatch? -/
def Attempt.isPatch : Attempt → Bool
  | .patch _ _ _ => true
  | .ctrl _ _ _ => false

/-- The machine id an attempt dispatches to. -/
def Attempt.machId : Attempt → String
  | .patch m _ _ => m.id
  | .ctrl m _ _ => m.id

/-- A display event emitted by the model (`EventEmitter` payloads). -/
inductive Event
  | recalledEntry (setlist entry status : String)
  | changedSetlist (setlist entry status : String)
  | remoteMessage (up down : String)
  | remoteDisplayXY (text : String) (xpos ypos : Int)
  | remoteDisplayPower (value : Int)
  | systemctl (action : String)
deriving DecidableEq

/-- `machine.name || machine.id`. -/
def machineLabel (m : Machine) : String :=
  if m.name = "" then m.id else m.name

/-- `Model._sendRouteCCSlots`: at most 4 slots, null items skipped, both
numbers clamped into 0..127; every `sendCC` exception is swallowed, so each
kept slot yields exactly one attempt. -/
def sendRouteCCSlots (m : Machine) (slots : Option (List (Option CC))) : List Attempt :=
  match slots with
  | none => []
  | some l =>
    if l.isEmpty then []
    else (l.take 4).filterMap (fun o => o.map (fun c => Attempt.ctrl m (clamp7 c.cc) (clamp7 c.value)))

/-- `this.machines.getById(r.machineId) || this.machines.getActive()` — the
machine resolution of one recalled route, with its fallback to the active
machine. -/
def routeMachine (st : ModelState) (r : Route) : Option Machine :=
  match r.machineId.bind (machGetById st.machines) with
  | some m => some m
  | none => machGetActive st

/-- The resolved output of one recalled route (after machine fallback). -/
def routeOut (st : ModelState) (r : Route) : Option String :=
  (routeMachine st r).bind (resolveMachineOut st)

/-- Per-route accumulators of `recallEntry`'s `forEach` body. -/
structure RouteOut where
  lines : List String
  errors : List String
  attempts : List Attempt
deriving DecidableEq

/-- The body of `recallEntry`'s `e.routes.forEach`: machine resolution (with
fallback to the active machine), program check, output resolution
(warn-and-skip into `lines`), `sendPatch` dispatch with its exception
caught into `errors`, then CC slots. -/
def recallRoute (io : MidiEnv) (st : ModelState) (r : Route) : RouteOut :=
  match routeMachine st r with
  | none =>
    { lines := [], errors := ["Machine inconnue: " ++ r.machineId.getD "null"], attempts := [] }
  | some machine =>
    let bank : DBank := { name := jsOrStr r.bankName "Bank", msb := r.msb, lsb := r.lsb }
    let patch : DPatch := { name := jsOrStr r.patchName "Patch", program := r.program }
    match r.program with
    | none =>
      { lines := [], errors := ["Program manquant pour machine " ++ machineLabel machine],
        attempts := [] }
    | some prog =>
      match resolveMachineOut st machine with
      | none =>
        { lines := ["WARN: pas de sortie MIDI pour " ++ machineLabel machine],
          errors := [], attempts := [] }
      | some out =>
        let machineRun : Machine := { machine with out := some out }
        match io.sendPatch machineRun bank patch with
        | .error msg =>
          { lines := [], errors := [machineLabel machine ++ ": " ++ msg],
            attempts := [Attempt.patch machineRun bank patch] }
        | .ok _ =>
          { lines := [machineLabel machine ++ " -> " ++ bank.name ++ " " ++ toString prog
              ++ " " ++ patch.name],
            errors := [],
            attempts := Attempt.patch machineRun bank patch :: sendRouteCCSlots machineRun r.ccSlots }

/-- The structured result of an engine operation plus its observable
effects. -/
structure RecallOut where
  ok : Bool
  message : String
  lines : List String
  errors : List String
  attempts : List Attempt
  events : List Event
  state : ModelState
deriving DecidableEq

/-- A failed engine result that changes nothing. -/
def recallFail (msg : String) (st : ModelState) : RecallOut :=
  { ok := false, message := msg, lines := [], errors := [], attempts := [], events := [],
    state := st }

/-- `Model.recallEntry`: iterate the entry's routes in array order,
accumulate `lines` / `errors` / dispatch attempts, emit `recalledEntry`
with status `KO` when any error was collected (else `OK`), reset the menu
to `main`, and return `ok` accordingly.  The Lean function is total: every
dispatch exception is modelled by the `Except` oracle and caught per route,
so the operation never raises to its caller. -/
def recallEntry (io : MidiEnv) (st : ModelState) (entryId : String) : RecallOut :=
  match storeGetActive st.store with
  | none => recallFail "Aucune setlist active." st
  | some s =>
    match storeGetEntry st.store s.id entryId with
    | none => recallFail "Entrée introuvable." st
    | some e =>
      let outs := e.routes.map (recallRoute io st)
      let lines := (outs.map (fun o => o.lines)).flatten
      let errors := (outs.map (fun o => o.errors)).flatten
      let attempts := (outs.map (fun o => o.attempts)).flatten
      if errors.isEmpty then
        { ok := true,
          message := "Recall OK: " ++ e.name ++ " // " ++ String.intercalate "/" lines,
          lines := lines, errors := errors, attempts := attempts,
          events := [Event.recalledEntry ("\x7b" ++ s.name ++ "\x7d") e.name "OK"],
          state := { st with currentMenu := Menu.main } }
      else
        { ok := false,
          message := "Recall partiel. " ++ String.intercalate " " lines ++ " Erreurs: "
            ++ String.intercalate "/" errors,
          lines := lines, errors := errors, attempts := attempts,
          events := [Event.recalledEntry ("\x7b" ++ s.name ++ "\x7d") e.name "KO"],
          state := { st with currentMenu := Menu.main } }

/-- The `${r.machineId}_${r.channel || 1}` composite key used by
`pasteDraftIntoEntry` for conflict detection (0, `null` and absent channels
are falsy, hence 1). -/
def chanKey (r : Route) : String :=
  r.machineId.getD "null" ++ "_" ++ toString (match r.channel with
    | some c => if c = 0 then (1 : Int) else c
    | none => 1)

/-- The structured result of `pasteDraftIntoEntry` plus the new state. -/
structure PasteOut where
  ok : Bool
  confirm : Bool
  conflicts : List String
  added : Nat
  overwritten : Nat
  message : String
  state : ModelState
deriving DecidableEq

/-- A failed paste result that changes nothing. -/
def pasteFail (msg : String) (st : ModelState) : PasteOut :=
  { ok := false, confirm := false, conflicts := [], added := 0, overwritten := 0,
    message := msg, state := st }

/-- The force-path merge loop of `pasteDraftIntoEntry`: upsert each draft
route in order, counting `added` vs `overwritten` by the `had` test — which
looks up the *bare* `machineId` in the composite-key set
(`existingByMachineAndChannel.has(copy.machineId)` in the source). -/
def pasteLoop (sid eid : String) (existingKeys : List String) :
    List Route → StoreData → Nat → Nat → Nat × Nat × StoreData
  | [], d, added, ow => (added, ow, d)
  | r :: rest, d, added, ow =>
    if jsTruthy r.machineId then
      let had := existingKeys.contains (r.machineId.getD "")
      let res := upsertRoute d sid eid r
      if res.1 then
        if had then pasteLoop sid eid existingKeys rest res.2 added (ow + 1)
        else pasteLoop sid eid existingKeys rest res.2 (added + 1) ow
      else pasteLoop sid eid existingKeys rest res.2 added ow
    else pasteLoop sid eid existingKeys rest d added ow

/-- `Model.pasteDraftIntoEntry`: conflicts are the composite
`machineId_channel` keys of draft routes already present in the entry; with
a conflict and no force, return `confirm` with the deduplicated key list
and mutate nothing; otherwise upsert every draft route. -/
def pasteDraftIntoEntry (st : ModelState) (entryId : String) (force clearDraft : Bool) :
    PasteOut :=
  match storeGetActive st.store with
  | none => pasteFail "No active setlist." st
  | some s =>
    match storeGetEntry st.store s.id entryId with
    | none => pasteFail "Entry not found." st
    | some e =>
      if st.draft.isEmpty then pasteFail "Draft is empty: nothing to paste." st
      else
        let existingKeys := (e.routes.filter (fun r => jsTruthy r.machineId)).map chanKey
        let conflicts := (st.draft.filter (fun r => jsTruthy r.machineId)).filterMap
          (fun r => if existingKeys.contains (chanKey r) then some (chanKey r) else none)
        if ¬ conflicts.isEmpty ∧ ¬ force then
          let unique := dedup conflicts
          let names := unique.map (fun id =>
            match machGetById st.machines id with
            | some m => if m.name = "" then id else m.name
            | none => id)
          { ok := false, confirm := true, conflicts := unique, added := 0, overwritten := 0,
            message := "Overwrite existing route(s) for: " ++ String.intercalate ", " names
              ++ " ?",
            state := st }
        else
          let res := pasteLoop s.id entryId existingKeys st.draft st.store 0 0
          let st1 := { st with store := res.2.2, draft := if clearDraft then [] else st.draft }
          { ok := true, confirm := false, conflicts := [], added := res.1,
            overwritten := res.2.1,
            message := "Pasted from draft: +" ++ toString res.1 ++ " route(s), overwritten "
              ++ toString res.2.1 ++ ".",
            state := st1 }

/-- `Model.getCurrentBank`. -/
def getCurrentBank (st : ModelState) : Option MBank :=
  match st.model with
  | none => none
  | some m =>
    if m.banks.isEmpty then none
    else
      match m.banks.get? st.bankIndex with
      | some b => some b
      | none => m.banks.head?

/-- `Model.snapshotSelectionForSetlist`: the draft route built from the
current browse selection.  Note the `channel` field (`machine.channel || 1`)
— draft snapshots carry a channel, stored routes do not. -/
def snapshotSelectionForSetlist (st : ModelState) (view : View) (idx : Int) : Option Route :=
  match st.model with
  | none => none
  | some m =>
    match (if idx < 0 then none else view.list.get? idx.toNat) with
    | none => none
    | some item =>
      let sel : Option (Option MBank × MPatch) :=
        if view.mode = "global" then
          match item with
          | .globalItem b p => some (some b, p)
          | .patchItem _ => none
        else
          match item with
          | .patchItem p => some (getCurrentBank st, p)
          | .globalItem _ _ => none
      match sel with
      | none => none
      | some (bank, patch) =>
        let machine := (machGetActive st).getD
          { id := "default", name := "", midnamFile := none, out := none, outSlot := none,
            channel := none }
        match patch.program with
        | none => none
        | some prog =>
          some { emptyRoute with
            machineId := some (if machine.id = "" then "default" else machine.id),
            midnamFile := st.currentMidnamFile,
            channel := some (match machine.channel with
              | some c => if c = 0 then 1 else c
              | none => 1),
            deviceName := some m.deviceName,
            bankName := jsStr (bank.bind (fun b => b.name)),
            msb := bank.bind (fun b => b.msb),
            lsb := bank.bind (fun b => b.lsb),
            program := some prog,
            patchName := jsStr patch.name }

/-- `Model.getUiState`: current setlist and entry names for TUI and VFD. -/
def getUiState (st : ModelState) : String × String :=
  let s := storeGetActive st.store
  let setName := jsOrStr (s.map (fun x => x.name)) ""
  let entryName :=
    match s, st.currentEntryId with
    | some sl, some cid =>
        jsOrStr ((sl.entries.find? (fun e => e.id == cid)).map (fun e => e.name)) ""
    | _, _ => ""
  (setName, entryName)

/-- `Model.setActiveSetlist`: set the active pointer, reset the current
entry to the first entry, emit `changedSetlist`.  `none` models the
TypeError the source raises on `s.name` when no setlist ends up active. -/
def setActiveSetlistM (st : ModelState) (id : String) : Option (Bool × ModelState × List Event) :=
  let res := storeSetActive st.store id
  match storeGetActive res.2 with
  | none => none
  | some s =>
    let firstId := jsStr ((s.entries.head?).map (fun e => e.id))
    let st1 := { st with store := res.2, currentEntryId := firstId }
    some (res.1, st1,
      [Event.changedSetlist ("\x7b" ++ s.name ++ "\x7d")
        (jsOrStr ((s.entries.head?).map (fun e => e.name)) "<NO ENTRY>") "WT"])

/-- `Model.activateEntry`: track the current entry, then recall it. -/
def activateEntry (io : MidiEnv) (st : ModelState) (entryId : String) : RecallOut :=
  match storeGetActive st.store with
  | none => recallFail "Aucune setlist active." st
  | some s =>
    match storeGetEntry st.store s.id entryId with
    | none => recallFail "Entrée introuvable." st
    | some _ => recallEntry io { st with currentEntryId := some entryId } entryId

/-- `Model.activateEntryDelta`: previous/next entry, clamped at the ends. -/
def activateEntryDelta (io : MidiEnv) (st : ModelState) (delta : Int) : Option RecallOut :=
  match storeGetActive st.store with
  | none => some (recallFail "Setlist vide." st)
  | some s =>
    if s.entries.isEmpty then some (recallFail "Setlist vide." st)
    else
      let idx0 : Int :=
        match st.currentEntryId with
        | some cid =>
          match s.entries.findIdx? (fun e => e.id == cid) with
          | some i => (i : Int)
          | none => 0
        | none => 0
      let idx := max 0 (min ((s.entries.length : Int) - 1) (idx0 + delta))
      match s.entries.get? idx.toNat with
      | none => none
      | some e2 => some (activateEntry io st e2.id)

/-- `Model.activateSetlistDelta`: previous/next setlist, clamped; `none`
models the TypeError on `getActiveSetlist().id` when no setlist is
active. -/
def activateSetlistDelta (st : ModelState) (delta : Int) : Option (ModelState × List Event) :=
  let l := st.store.setlists
  if l.isEmpty then some (st, [])
  else
    match storeGetActive st.store with
    | none => none
    | some cur =>
      let idx0 : Int :=
        if cur.id = "" then 0
        else
          match l.findIdx? (fun s => s.id == cur.id) with
          | some i => (i : Int)
          | none => 0
      let idx := max 0 (min ((l.length : Int) - 1) (idx0 + delta))
      match l.get? idx.toNat with
      | none => none
      | some target =>
        match setActiveSetlistM st target.id with
        | none => none
        | some r => some (r.2.1, r.2.2)

/-- The combined observable outcome of one remote key press. -/
structure KeyOut where
  state : ModelState
  events : List Event
  attempts : List Attempt
deriving DecidableEq

/-- `Model.triggerFunctionKey` (keys 1..8).  `none` models an uncaught
TypeError (the source dereferences `getActiveSetlist()` without a guard in
several branches); deferred `setTimeout` emissions are appended after the
synchronous events. -/
def triggerFunctionKey (io : MidiEnv) (st : ModelState) (n : Int) : Option KeyOut :=
  if n = 1 then
    if st.currentMenu ≠ Menu.main then some ⟨st, [], []⟩
    else
      match activateSetlistDelta st (-1) with
      | none => none
      | some r => some ⟨r.1, r.2, []⟩
  else if n = 2 then
    if st.currentMenu ≠ Menu.main then some ⟨st, [], []⟩
    else
      match activateSetlistDelta st 1 with
      | none => none
      | some r => some ⟨r.1, r.2, []⟩
  else if n = 3 then
    if st.currentMenu ≠ Menu.main then some ⟨st, [], []⟩
    else
      match storeGetActive st.store with
      | none => none
      | some s =>
        if s.entries.isEmpty then some ⟨st, [], []⟩
        else
          let deferred := Event.remoteDisplayXY (String.mk [Char.ofNat 0xF7]) 20 2
          match st.currentEntryId with
          | some cid =>
            let r := activateEntry io st cid
            some ⟨r.state, r.events ++ [deferred], r.attempts⟩
          | none =>
            match jsStr ((s.entries.head?).map (fun e => e.id)) with
            | some first =>
              let r := activateEntry io st first
              some ⟨r.state, r.events ++ [deferred], r.attempts⟩
            | none => some ⟨st, [deferred], []⟩
  else if n = 4 then
    if st.currentMenu ≠ Menu.main then some ⟨st, [], []⟩
    else
      match storeGetActive st.store with
      | none => none
      | some s =>
        if s.entries.isEmpty then some ⟨st, [], []⟩
        else
          match activateEntryDelta io st (-1) with
          | none => none
          | some r => some ⟨r.state, r.events, r.attempts⟩
  else if n = 5 then
    if st.currentMenu ≠ Menu.main then some ⟨st, [], []⟩
    else
      match storeGetActive st.store with
      | none => none
      | some s =>
        if s.entries.isEmpty then some ⟨st, [], []⟩
        else
          match activateEntryDelta io st 1 with
          | none => none
          | some r => some ⟨r.state, r.events, r.attempts⟩
  else if n = 6 then
    if st.currentMenu = Menu.power then
      some ⟨st, [Event.remoteMessage "MIDISTAGE REBOOTING" "Please Wait...",
        Event.systemctl "reboot"], []⟩
    else
      match storeGetActive st.store with
      | none => none
      | some s =>
        let uis := getUiState st
        let currentName := if s.entries.isEmpty then "<NO ENTRY>" else uis.2
        some ⟨st, [Event.changedSetlist ("\x7b" ++ uis.1 ++ "\x7d") currentName "WT"], []⟩
  else if n = 7 then
    if st.currentMenu = Menu.power then
      some ⟨st, [Event.remoteMessage "MIDISTAGE SYSTEM..." "...IS SHUTTING DOWN",
        Event.remoteDisplayPower 0, Event.systemctl "poweroff"], []⟩
    else some ⟨st, [], []⟩
  else if n = 8 then
    if st.currentMenu ≠ Menu.power then
      some ⟨{ st with currentMenu := Menu.power },
        [Event.remoteMessage "Power Menu (F8:BACK)" "F6:REBOOT F7:POWROFF"], []⟩
    else
      match storeGetActive st.store with
      | none => none
      | some s =>
        let uis := getUiState st
        let currentName := if s.entries.isEmpty then "<NO ENTRY>" else uis.2
        some ⟨{ st with currentMenu := Menu.main },
          [Event.changedSetlist ("\x7b" ++ uis.1 ++ "\x7d") currentName "WT"], []⟩
  else some ⟨st, [], []⟩

/-- `n` consecutive F8 presses. -/
def iterF8 (io : MidiEnv) : Nat → ModelState → Option ModelState
  | 0, st => some st
  | n + 1, st =>
    match triggerFunctionKey io st 8 with
    | none => none
    | some r => iterF8 io n r.state

/-- `cleanText` (remoteDevice.js): collapse every whitespace run to a single
space and trim. -/
def cleanText (s : String) : String :=
  String.intercalate " " ((s.split Char.isWhitespace).filter (fun w => w ≠ ""))

/-- `fitFixed` (remoteDevice.js): clean, then truncate or pad to exactly
`n` characters. -/
def fitFixed (s : String) (n : Nat) : String :=
  let t := cleanText s
  if t.length > n then String.mk (t.toList.take n)
  else t ++ String.mk (List.replicate (n - t.length) ' ')

/-- `Buffer.from(s, "ascii")`: one byte per character, high bit stripped. -/
def asciiBytes (s : String) : List Int :=
  s.toList.map (fun c => ((c.toNat % 256) % 128 : Int))

/-- The remote link driver state (`RemoteDevice`): outbound queue, power and
sleep flags, and the idle / deep-sleep timers modelled as absolute deadlines
(`some t` means armed to fire at time `t`). -/
structure RemoteState where
  queue : List (List Int)
  disabled : Bool
  sleeping : Bool
  vfdoff : Bool
  activeBrightness : Int
  sleepBrightness : Int
  idleDelay : Nat
  powerOffDelayOffset : Nat
  deepSleepEnabled : Bool
  idleDeadline : Option Nat
  offDeadline : Option Nat
deriving DecidableEq

/-- `RemoteDevice._send`: enqueue unless permanently disabled (the async
drain loop with its chunked flow control is not modelled). -/
def sendBuf (st : RemoteState) (buf : List Int) : RemoteState :=
  if st.disabled then st else { st with queue := st.queue ++ [buf] }

/-- `RemoteDevice._resetIdleTimer` at time `now`: wake from sleep, re-arm
the idle timer, re-power the display, and — only when deep sleep is enabled
— re-arm the off timer. -/
def resetIdleTimer (st : RemoteState) (now : Nat) : RemoteState :=
  let st1 :=
    if st.sleeping then { sendBuf st [0x1F, 0x58, st.activeBrightness] with sleeping := false }
    else st
  let st2 := { st1 with idleDeadline := some (now + st1.idleDelay) }
  let st3 :=
    if st2.vfdoff then { sendBuf st2 [0x1F, 0x28, 0x61, 0x40, 0x01] with vfdoff := false }
    else st2
  if st3.deepSleepEnabled then
    { st3 with offDeadline := some (now + st3.idleDelay + st3.powerOffDelayOffset * 1000) }
  else st3

/-- `RemoteDevice.initVFD`: reset timers, then enqueue init + clear/home. -/
def initVFD (st : RemoteState) (now : Nat) : RemoteState :=
  sendBuf (resetIdleTimer st now) [0x1B, 0x40, 0x0C, 0x0B]

/-- `RemoteDevice.clearVFD`. -/
def clearVFD (st : RemoteState) (now : Nat) : RemoteState :=
  resetIdleTimer (sendBuf st [0x0C, 0x0B]) now

/-- `RemoteDevice.setVFDBrightness`. -/
def setVFDBrightness (st : RemoteState) (now : Nat) (br : Int) : RemoteState :=
  resetIdleTimer (sendBuf { st with activeBrightness := br } [0x1F, 0x58, br]) now

/-- `RemoteDevice.setVFDReverse`. -/
def setVFDReverse (st : RemoteState) (now : Nat) (rv : Int) : RemoteState :=
  resetIdleTimer (sendBuf st [0x1F, 0x72, rv]) now

/-- `RemoteDevice.setVFDPower`. -/
def setVFDPower (st : RemoteState) (now : Nat) (pw : Int) : RemoteState :=
  resetIdleTimer (sendBuf st [0x1F, 0x28, 0x61, 0x40, pw]) now

/-- `RemoteDevice.setVFDBlink`. -/
def setVFDBlink (st : RemoteState) (now : Nat) (bk : Int) : RemoteState :=
  resetIdleTimer (sendBuf st [0x1F, 0x45, bk]) now

/-- `RemoteDevice.setIntlFont`: enqueues the font command and returns — the
source does not call `_resetIdleTimer` here. -/
def setIntlFont (st : RemoteState) (ifs : Int) : RemoteState :=
  sendBuf st [0x1B, 0x52, ifs]

/-- `RemoteDevice.setCharTable`: enqueues the char-table command and returns
— the source does not call `_resetIdleTimer` here. -/
def setCharTable (st : RemoteState) (tid : Int) : RemoteState :=
  sendBuf st [0x1B, 0x74, tid]

/-- `RemoteDevice.showText`: two 20-character lines at fixed positions. -/
def showText (st : RemoteState) (now : Nat) (lineUp lineLow : String) : RemoteState :=
  let line1 := fitFixed lineUp 20
  let line2 := fitFixed lineLow 20
  resetIdleTimer (sendBuf st ([0x1F, 0x24, 0x01, 0x01] ++ asciiBytes line1
    ++ [0x1F, 0x24, 0x01, 0x02] ++ asciiBytes line2)) now

/-- `RemoteDevice.showTextXY`: raw text at arbitrary coordinates. -/
def showTextXY (st : RemoteState) (now : Nat) (text : String) (x y : Int) : RemoteState :=
  resetIdleTimer (sendBuf st ([0x1F, 0x24, x, y] ++ asciiBytes text)) now

/-- The inbound event emitted for one line on the remote link. -/
inductive InEvent
  | key (c : Char)
  | raw (s : String)
deriving DecidableEq

/-- The accepted key alphabet of the remote protocol: A..H and 1..8. -/
def inAlphabet (c : Char) : Bool :=
  (decide ('A' ≤ c) && decide (c ≤ 'H')) || (decide ('1' ≤ c) && decide (c ≤ '8'))

/-- The inbound data handler of `RemoteControl.start` (remote.js): trim,
drop empty lines, take the first character upper-cased; alphabet characters
are emitted as keypresses, anything else emits the whole trimmed line as a
`raw` event. -/
def remoteControlParse (line : String) : Option InEvent :=
  let s := jsTrim line
  if s = "" then none
  else
    let ch := (strFront s).toUpper
    if inAlphabet ch then some (InEvent.key ch) else some (InEvent.raw s)

/-- The inbound data handler wired in the `RemoteDevice` constructor
(remoteDevice.js): trim, drop empty lines, then emit the first character
upper-cased as a keypress — with no alphabet filter and no raw event. -/
def remoteDeviceParse (line : String) : Option Char :=
  let s := jsTrim line
  if s = "" then none else some (strFront s).toUpper

/-- The full `RemoteDevice` data handler: a non-empty line also resets the
idle timer before the key event is emitted. -/
def remoteDeviceHandleLine (st : RemoteState) (now : Nat) (line : String) :
    RemoteState × Option Char :=
  let s := jsTrim line
  if s = "" then (st, none)
  else (resetIdleTimer st now, some (strFront s).toUpper)

/-! ## General lemmas about the embedding -/

/-- `updateFirst` rewrites the element that `find?` locates, provided the
update preserves the predicate. -/
lemma find?_updateFirst (p : α → Bool) (f : α → α) (l : List α)
    (hpres : ∀ x, p (f x) = p x) :
    (updateFirst p f l).find? p = (l.find? p).map f := by
  induction l with
  | nil => rfl
  | cons x xs ih =>
    by_cases hx : p x
    · simp [updateFirst, hx, List.find?, hpres]
    · simp [updateFirst, hx, List.find?, ih]

/-- After `setEntryRoutes`, looking the entry up again yields it with the new
routes. -/
lemma storeGetEntry_setEntryRoutes (d : StoreData) (sid eid : String) (rs : List Route)
    (e : Entry) (he : storeGetEntry d sid eid = some e) :
    storeGetEntry (setEntryRoutes d sid eid rs) sid eid = some { e with routes := rs } := by
  unfold storeGetEntry storeGetById at he ⊢
  cases hfs : d.setlists.find? (fun s => s.id == sid) with
  | none => rw [hfs] at he; cases he
  | some s0 =>
    rw [hfs] at he
    have he' : s0.entries.find? (fun x => x.id == eid) = some e := he
    have h1 : (updateFirst (fun s => s.id == sid) (setRoutesInEntry eid rs) d.setlists).find?
        (fun s => s.id == sid) = some (setRoutesInEntry eid rs s0) := by
      rw [find?_updateFirst (fun s => s.id == sid) (setRoutesInEntry eid rs) d.setlists
        (fun x => rfl), hfs]
      rfl
    show (match (updateFirst (fun s => s.id == sid) (setRoutesInEntry eid rs) d.setlists).find?
        (fun s => s.id == sid) with
      | none => none
      | some s => s.entries.find? (fun x => x.id == eid)) = some { e with routes := rs }
    rw [h1]
    show (updateFirst (fun x => x.id == eid) (fun x => { x with routes := rs })
        s0.entries).find? (fun x => x.id == eid) = some { e with routes := rs }
    rw [find?_updateFirst (fun x => x.id == eid) (fun x => { x with routes := rs }) s0.entries
      (fun x => rfl), he']
    rfl

/-- Elements of `upsertRoutes r l` are old routes, the new route, or the new
route completed with an old route's `ccSlots`. -/
lemma mem_upsertRoutes (r x : Route) (l : List Route) (hx : x ∈ upsertRoutes r l) :
    x ∈ l ∨ x = r ∨ ∃ y ∈ l, x = { r with ccSlots := y.ccSlots } := by
  induction l with
  | nil =>
    simp [upsertRoutes] at hx
    exact Or.inr (Or.inl hx)
  | cons a as ih =>
    by_cases ha : a.machineId == r.machineId
    · simp only [upsertRoutes, if_pos ha] at hx
      rcases List.mem_cons.mp hx with h | h
      · by_cases hcc : r.ccSlots = none ∧ a.ccSlots ≠ none
        · rw [if_pos hcc] at h
          exact Or.inr (Or.inr ⟨a, List.mem_cons_self a as, h⟩)
        · rw [if_neg hcc] at h
          exact Or.inr (Or.inl h)
      · exact Or.inl (List.mem_cons_of_mem a h)
    · simp only [upsertRoutes, if_neg ha] at hx
      rcases List.mem_cons.mp hx with h | h
      · exact Or.inl (h ▸ List.mem_cons_self a as)
      · rcases ih h with h1 | h1 | ⟨y, hy, h1⟩
        · exact Or.inl (List.mem_cons_of_mem a h1)
        · exact Or.inr (Or.inl h1)
        · exact Or.inr (Or.inr ⟨y, List.mem_cons_of_mem a hy, h1⟩)

/-- When no route of `l` has machine id `m`, upserting a route for `m`
appends it. -/
lemma upsertRoutes_of_filter_nil (r : Route) (m : String) (hr : r.machineId = some m)
    (l : List Route) (h : l.filter (fun x => x.machineId == some m) = []) :
    upsertRoutes r l = l ++ [r] := by
  induction l with
  | nil => rfl
  | cons x xs ih =>
    rw [List.filter_cons] at h
    by_cases px : x.machineId == some m
    · simp [px] at h
    · simp only [px, if_neg] at h
      have hne : (x.machineId == r.machineId) = false := by
        rw [hr]
        simpa using px
      simp only [upsertRoutes, hne, Bool.false_eq_true, if_false, List.cons_append]
      rw [ih (by simpa using h)]

/-- When exactly one route of `l` has machine id `m` — the uniqueness
invariant an entry maintains — upserting a new route for `m` keeps exactly
one route for `m`: the new one, with the old `ccSlots` kept when the new
route omits them (last write wins). -/
lemma filter_upsertRoutes_singleton (r ρ : Route) (m : String) (hr : r.machineId = some m)
    (l : List Route) (h : l.filter (fun x => x.machineId == some m) = [ρ]) :
    (upsertRoutes r l).filter (fun x => x.machineId == some m) =
      [if r.ccSlots = none ∧ ρ.ccSlots ≠ none then { r with ccSlots := ρ.ccSlots } else r] := by
  induction l with
  | nil => simp at h
  | cons x xs ih =>
    rw [List.filter_cons] at h
    by_cases px : x.machineId == some m
    · simp only [px, if_pos] at h
      have hx : x = ρ ∧ xs.filter (fun y => y.machineId == some m) = [] := by
        constructor
        · exact (List.cons_eq_cons.mp h).1
        · exact (List.cons_eq_cons.mp h).2
      have heq : (x.machineId == r.machineId) = true := by
        rw [hr]; exact px
      simp only [upsertRoutes, heq, if_true]
      rw [List.filter_cons]
      have pm : ((if r.ccSlots = none ∧ x.ccSlots ≠ none then { r with ccSlots := x.ccSlots }
          else r).machineId == some m) = true := by
        by_cases hcc : r.ccSlots = none ∧ x.ccSlots ≠ none
        · simp [hcc, hr]
        · simp [hcc, hr]
      rw [pm]
      simp only [if_true]
      rw [hx.2, hx.1]
    · simp only [px, if_neg, Bool.false_eq_true, if_false] at h
      have hne : (x.machineId == r.machineId) = false := by
        rw [hr]; simpa using px
      simp only [upsertRoutes, hne, Bool.false_eq_true, if_false]
      rw [List.filter_cons]
      simp only [px, Bool.false_eq_true, if_false]
      exact ih h

/-! ## C4 — upsert by machineId: last write wins, CC slots preserved -/

/-- C4: for every entry, upserting a route for an already-present machineId
leaves exactly one route for that machineId, equal to the newly written
(normalized) route except that `ccSlots` are kept from the replaced route
when the new payload omits them; and upserting twice into an entry with no
route for that machineId also leaves exactly one route, the last write
winning with the same `ccSlots` fallback.  (Claim C4.) -/
theorem upsertRoute_last_write_wins_c4
    (d : StoreData) (sid eid m : String) (r r1 r2 ρ : Route) (e : Entry)
    (he : storeGetEntry d sid eid = some e)
    (hr : (normalizeRoute r).machineId = some m)
    (h1 : (normalizeRoute r1).machineId = some m)
    (h2 : (normalizeRoute r2).machineId = some m) :
    (e.routes.filter (fun x => x.machineId == some m) = [ρ] →
      (upsertRoute d sid eid r).1 = true ∧
      ∃ e2, storeGetEntry (upsertRoute d sid eid r).2 sid eid = some e2 ∧
        e2.routes.filter (fun x => x.machineId == some m) =
          [if (normalizeRoute r).ccSlots = none ∧ ρ.ccSlots ≠ none
            then { normalizeRoute r with ccSlots := ρ.ccSlots } else normalizeRoute r]) ∧
    (e.routes.filter (fun x => x.machineId == some m) = [] →
      (upsertRoute d sid eid r1).1 = true ∧
      (upsertRoute (upsertRoute d sid eid r1).2 sid eid r2).1 = true ∧
      ∃ e2, storeGetEntry (upsertRoute (upsertRoute d sid eid r1).2 sid eid r2).2 sid eid
          = some e2 ∧
        e2.routes.filter (fun x => x.machineId == some m) =
          [if (normalizeRoute r2).ccSlots = none ∧ (normalizeRoute r1).ccSlots ≠ none
            then { normalizeRoute r2 with ccSlots := (normalizeRoute r1).ccSlots }
            else normalizeRoute r2]) := by
  have hred : ∀ rr : Route, (normalizeRoute rr).machineId = some m →
      ∀ dd ee, storeGetEntry dd sid eid = some ee →
      upsertRoute dd sid eid rr
        = (true, setEntryRoutes dd sid eid (upsertRoutes (normalizeRoute rr) ee.routes)) := by
    intro rr hrr dd ee hee
    unfold upsertRoute
    rw [hee]
    simp only [hrr]
  constructor
  · intro hone
    rw [hred r hr d e he]
    refine ⟨rfl, _, storeGetEntry_setEntryRoutes d sid eid _ e he, ?_⟩
    exact filter_upsertRoutes_singleton (normalizeRoute r) ρ m hr e.routes hone
  · intro hnil
    rw [hred r1 h1 d e he]
    have happ : upsertRoutes (normalizeRoute r1) e.routes = e.routes ++ [normalizeRoute r1] :=
      upsertRoutes_of_filter_nil (normalizeRoute r1) m h1 e.routes hnil
    have hd1 : storeGetEntry (setEntryRoutes d sid eid
        (upsertRoutes (normalizeRoute r1) e.routes)) sid eid
        = some { e with routes := e.routes ++ [normalizeRoute r1] } := by
      rw [happ] at *
      exact storeGetEntry_setEntryRoutes d sid eid _ e he
    rw [hred r2 h2 _ _ hd1]
    refine ⟨rfl, rfl, _, storeGetEntry_setEntryRoutes _ sid eid _ _ hd1, ?_⟩
    have hfil : (e.routes ++ [normalizeRoute r1]).filter (fun x => x.machineId == some m)
        = [normalizeRoute r1] := by
      rw [List.filter_append, hnil]
      simp [h1]
    exact filter_upsertRoutes_singleton (normalizeRoute r2) (normalizeRoute r1) m h2 _ hfil

/-- The pre-existing route of the C4 example: `m1` with CC slot
`{cc:74, value:100}`. -/
def c4route0 : Route :=
  { emptyRoute with machineId := some "m1", ccSlots := some [some ⟨74, 100⟩] }

/-- The entry of the C4 example. -/
def c4entry : Entry := { id := "e1", name := "E1", routes := [c4route0] }

/-- The store of the C4 example. -/
def c4store : StoreData :=
  { setlists := [{ id := "s1", name := "SL", entries := [c4entry], hotkeys := [] }],
    activeId := some "s1" }

/-- The C4 example update payload: `{machineId:"m1", program:5}`. -/
def c4upd : Route := { emptyRoute with machineId := some "m1", program := some 5 }

/-- The route the C4 example expects afterwards:
`{machineId:"m1", program:5, ccSlots:[{74,100}]}`. -/
def c4result : Route :=
  { emptyRoute with
      machineId := some "m1"
      program := some 5
      ccSlots := some [some ⟨74, 100⟩] }

/-- Witness for C4 at the claim's own example: `upsertRoute` succeeds and the
entry afterwards holds exactly the expected route. -/
theorem upsertRoute_last_write_wins_c4_witness :
    (upsertRoute c4store "s1" "e1" c4upd).1 = true ∧
    storeGetEntry (upsertRoute c4store "s1" "e1" c4upd).2 "s1" "e1" =
      some { id := "e1", name := "E1", routes := [c4result] } := by
  have h := (upsertRoute_last_write_wins_c4 c4store "s1" "e1" "m1" c4upd c4upd c4upd
    c4route0 c4entry (by decide) (by decide) (by decide) (by decide)).1 (by decide)
  exact ⟨h.1, by decide⟩

/-! ## C8 — assignHotkey guards -/

/-- Writing a key into a JS object makes it readable. -/
lemma hkLookup_assocSet (l : List (String × String)) (k v : String) :
    hkLookup (assocSet l k v) k = some v := by
  induction l with
  | nil => simp [assocSet, hkLookup, List.find?]
  | cons p rest ih =>
    obtain ⟨k0, v0⟩ := p
    by_cases hk : k0 = k
    · simp [assocSet, hk, hkLookup, List.find?]
    · simp only [assocSet, if_neg hk]
      simp only [hkLookup, List.find?] at ih ⊢
      have : (k0 == k) = false := by simpa using hk
      rw [this]
      exact ih

/-- C8: `assignHotkey` fails without mutation when the letter does not
normalize into A..H, when the target entry does not exist in the setlist,
and when the target entry already holds a different letter (so assigning
"A" then "B" to the same entry fails the second time, unchanged);
otherwise it binds the letter to the entry and returns true.  (Claim C8.) -/
theorem assignHotkey_guards_c8
    (d : StoreData) (sid eid : String) (key : Option String) (s : Setlist)
    (hs : storeGetById d sid = some s) :
    (normalizeHotkey key = none → assignHotkey d sid key eid = (false, d)) ∧
    (∀ hk, normalizeHotkey key = some hk →
      (s.entries.find? (fun e => e.id == eid) = none →
        assignHotkey d sid key eid = (false, d)) ∧
      ((∃ p ∈ s.hotkeys, p.2 = eid ∧ p.1 ≠ hk) →
        assignHotkey d sid key eid = (false, d)) ∧
      ((s.entries.find? (fun e => e.id == eid)).isSome = true →
       (∀ p ∈ s.hotkeys, p.2 = eid → p.1 = hk) →
        (assignHotkey d sid key eid).1 = true ∧
        ∃ s2, storeGetById (assignHotkey d sid key eid).2 sid = some s2 ∧
          s2.hotkeys = assocSet s.hotkeys hk eid ∧
          hkLookup s2.hotkeys hk = some eid)) := by
  constructor
  · intro hn
    simp only [assignHotkey, hs, hn]
  · intro hk hkey
    refine ⟨?_, ?_, ?_⟩
    · intro hmiss
      simp only [assignHotkey, hs, hkey, hmiss, Option.isSome_none, Bool.false_eq_true,
        if_false]
    · intro ⟨p, hp, hpe, hpk⟩
      have hany : s.hotkeys.any (fun q => q.2 == eid && q.1 != hk) = true := by
        rw [List.any_eq_true]
        exact ⟨p, hp, by simp [hpe, hpk]⟩
      simp only [assignHotkey, hs, hkey, hany]
      cases hfind : (s.entries.find? (fun e => e.id == eid)).isSome <;> simp
    · intro hfind hnone
      have hany : s.hotkeys.any (fun q => q.2 == eid && q.1 != hk) = false := by
        rw [List.any_eq_false]
        intro p hp
        by_cases hpe : p.2 = eid
        · simp [hpe, hnone p hp hpe]
        · simp [hpe]
      simp only [assignHotkey, hs, hkey, hfind, hany, if_true, Bool.false_eq_true, if_false]
      refine ⟨trivial, { s with hotkeys := assocSet s.hotkeys hk eid }, ?_, rfl,
        hkLookup_assocSet s.hotkeys hk eid⟩
      show (updateFirst (fun t => t.id == sid)
          (fun t => { t with hotkeys := assocSet t.hotkeys hk eid }) d.setlists).find?
          (fun t => t.id == sid) = _
      rw [find?_updateFirst (fun t => t.id == sid)
        (fun t => { t with hotkeys := assocSet t.hotkeys hk eid }) d.setlists (fun x => rfl)]
      rw [show d.setlists.find? (fun t => t.id == sid) = some s from hs]
      rfl

/-- The C8 store: setlist `s1` with entries `e1`, `e2` and no hotkeys. -/
def c8s0 : Setlist :=
  { id := "s1", name := "SL",
    entries := [{ id := "e1", name := "E1", routes := [] },
      { id := "e2", name := "E2", routes := [] }],
    hotkeys := [] }

/-- The C8 store before any assignment. -/
def c8d0 : StoreData := { setlists := [c8s0], activeId := some "s1" }

/-- The C8 setlist after binding "A" to `e1`. -/
def c8s1 : Setlist := { c8s0 with hotkeys := [("A", "e1")] }

/-- The C8 store after binding "A" to `e1`. -/
def c8d1 : StoreData := { setlists := [c8s1], activeId := some "s1" }

/-- Witness for C8: binding "A" to `e1` succeeds and yields exactly `c8d1`;
then binding "B" to `e1` returns false with the store unchanged; an
out-of-alphabet letter and a missing entry also fail without mutation. -/
theorem assignHotkey_guards_c8_witness :
    assignHotkey c8d0 "s1" (some "A") "e1" = (true, c8d1) ∧
    assignHotkey c8d1 "s1" (some "B") "e1" = (false, c8d1) ∧
    assignHotkey c8d0 "s1" (some "Z") "e1" = (false, c8d0) ∧
    assignHotkey c8d0 "s1" (some "A") "eX" = (false, c8d0) := by
  refine ⟨by decide, ?_, ?_, ?_⟩
  · exact ((assignHotkey_guards_c8 c8d1 "s1" "e1" (some "B") c8s1 (by decide)).2 "B"
      (by decide)).2.1 (by decide)
  · exact (assignHotkey_guards_c8 c8d0 "s1" "e1" (some "Z") c8s0 (by decide)).1 (by decide)
  · exact ((assignHotkey_guards_c8 c8d0 "s1" "eX" (some "A") c8s0 (by decide)).2 "A"
      (by decide)).1 (by decide)

/-! ## C9 — numeric normalization: only CC slots are clamped -/

/-- `clamp7` never goes below 0. -/
lemma clamp7_nonneg (n : Int) : 0 ≤ clamp7 n := le_max_left 0 _

/-- `clamp7` never exceeds 127. -/
lemma clamp7_le (n : Int) : clamp7 n ≤ 127 := by
  unfold clamp7
  exact max_le (by norm_num) (min_le_left _ _)

/-- C9 (amended): route normalization clamps only the CC slots — each kept
slot has `cc` and `value` in 0..127 and at most 4 slots are kept — while
`msb`, `lsb` and `program` are stored unchanged, with no range clamping.
(Claim C9, amended.) -/
theorem normalizeRoute_clamps_cc_only_c9 (r : Route) :
    ((normalizeRoute r).msb = r.msb ∧ (normalizeRoute r).lsb = r.lsb ∧
      (normalizeRoute r).program = r.program) ∧
    (∀ l, (normalizeRoute r).ccSlots = some l →
      l.length ≤ 4 ∧ ∀ o ∈ l, ∃ c : CC, o = some c ∧
        0 ≤ c.cc ∧ c.cc ≤ 127 ∧ 0 ≤ c.value ∧ c.value ≤ 127) := by
  refine ⟨⟨rfl, rfl, rfl⟩, ?_⟩
  intro l hl
  simp only [normalizeRoute] at hl
  by_cases hc : (r.ccSlots.isSome || r.cc.isSome || r.ccs.isSome) = true
  · rw [if_pos hc] at hl
    cases hsv : (if r.ccSlots.isSome then r.ccSlots else if r.cc.isSome then r.cc else r.ccs) with
    | none => rw [hsv] at hl; cases hl
    | some l0 =>
      rw [hsv] at hl
      simp only [normalizeCCSlots] at hl
      injection hl with hl
      subst hl
      constructor
      · rw [List.length_take]
        exact min_le_left 4 _
      · intro o ho
        have ho2 := List.take_subset 4 _ ho
        rcases List.mem_map.mp ho2 with ⟨c0, _, hco⟩
        exact ⟨⟨clamp7 c0.cc, clamp7 c0.value⟩, hco.symm,
          clamp7_nonneg c0.cc, clamp7_le c0.cc, clamp7_nonneg c0.value, clamp7_le c0.value⟩
  · rw [if_neg hc] at hl
    cases hl

/-- The C9 counterexample route: `program: 200`, out of the 0..127 range. -/
def c9route : Route := { emptyRoute with machineId := some "m1", program := some 200 }

/-- The C9 counterexample store: an active setlist with no entries. -/
def c9store : StoreData :=
  { setlists := [{ id := "s1", name := "SL", entries := [], hotkeys := [] }],
    activeId := some "s1" }

/-- Counterexample to C9 as stated: `normalizeRoute` does not clamp
`program` (nor `msb`/`lsb`), so `addEntry` stores a route whose `program`
is 200 > 127. -/
theorem normalizeRoute_clamps_cc_only_c9_cex :
    (normalizeRoute c9route).program = some 200 ∧
    storeGetEntry (addEntry c9store "s1" (some "E") [c9route] "e1").2 "s1" "e1"
      = some { id := "e1", name := "E", routes := [c9route] } ∧
    ¬ ((200 : Int) ≤ 127) := by
  exact ⟨rfl, by decide, by decide⟩

/-- A C9 witness payload with over-range, null and surplus CC slots. -/
def c9slots : Route :=
  { emptyRoute with
      machineId := some "m1"
      ccSlots := some [some ⟨300, -5⟩, none, some ⟨10, 20⟩, some ⟨1, 1⟩, some ⟨2, 2⟩,
        some ⟨3, 3⟩] }

/-- The normalized CC slots the C9 witness expects. -/
def c9normSlots : List (Option CC) :=
  [some ⟨127, 0⟩, some ⟨10, 20⟩, some ⟨1, 1⟩, some ⟨2, 2⟩]

/-- Witness for the amended C9 at a concrete route: clamped into range, at
most 4 slots kept. -/
theorem normalizeRoute_clamps_cc_only_c9_witness :
    (normalizeRoute c9slots).ccSlots = some c9normSlots ∧
    c9normSlots.length ≤ 4 ∧
    (∀ o ∈ c9normSlots, ∃ c : CC, o = some c ∧
      0 ≤ c.cc ∧ c.cc ≤ 127 ∧ 0 ≤ c.value ∧ c.value ≤ 127) := by
  have h := (normalizeRoute_clamps_cc_only_c9 c9slots).2 c9normSlots (by decide)
  exact ⟨by decide, h.1, h.2⟩

/-! ## C10 — stored routes carry exactly the persisted fields (no channel) -/

/-- The shape of a stored (normalized) route: no `channel` and no
alternative CC spellings — only the nine persisted fields can be present. -/
def routeStoredShape (r : Route) : Prop :=
  r.channel = none ∧ r.cc = none ∧ r.ccs = none

instance (r : Route) : Decidable (routeStoredShape r) := by
  unfold routeStoredShape
  infer_instance

/-- Every route of every entry of the store has the stored shape. -/
def storeStoredShape (d : StoreData) : Prop :=
  ∀ s ∈ d.setlists, ∀ e ∈ s.entries, ∀ r ∈ e.routes, routeStoredShape r

instance (d : StoreData) : Decidable (storeStoredShape d) := by
  unfold storeStoredShape
  infer_instance

/-- Elements of `updateFirst p f l` are old elements or `f` of one. -/
lemma mem_updateFirst (p : α → Bool) (f : α → α) (l : List α) (x : α)
    (hx : x ∈ updateFirst p f l) : x ∈ l ∨ ∃ y ∈ l, x = f y := by
  induction l with
  | nil => simp [updateFirst] at hx
  | cons a as ih =>
    cases ha : p a with
    | true =>
      rw [updateFirst, if_pos (by rw [ha])] at hx
      rcases List.mem_cons.mp hx with h | h
      · exact Or.inr ⟨a, List.mem_cons_self a as, h⟩
      · exact Or.inl (List.mem_cons_of_mem a h)
    | false =>
      rw [updateFirst, if_neg (by rw [ha]; exact Bool.false_ne_true)] at hx
      rcases List.mem_cons.mp hx with h | h
      · exact Or.inl (h ▸ List.mem_cons_self a as)
      · rcases ih h with h1 | ⟨y, hy, h1⟩
        · exact Or.inl (List.mem_cons_of_mem a h1)
        · exact Or.inr ⟨y, List.mem_cons_of_mem a hy, h1⟩

/-- A found entry lives in a setlist of the store. -/
lemma storeGetEntry_mem (d : StoreData) (sid eid : String) (e : Entry)
    (h : storeGetEntry d sid eid = some e) :
    ∃ s ∈ d.setlists, e ∈ s.entries := by
  unfold storeGetEntry storeGetById at h
  cases hfs : d.setlists.find? (fun s => s.id == sid) with
  | none => rw [hfs] at h; cases h
  | some s0 =>
    rw [hfs] at h
    exact ⟨s0, List.mem_of_find?_eq_some hfs, List.mem_of_find?_eq_some h⟩

/-- C10: `normalizeRoute` outputs carry no `channel` (and no `cc`/`ccs`
input spellings); draft snapshots do carry a `channel`; and both `addEntry`
and `upsertRoute` only ever store `normalizeRoute` images (or such an image
with `ccSlots` taken from an already-stored route), so stored routes never
have a channel field.  (Claim C10.) -/
theorem storedRoutes_have_no_channel_c10 :
    (∀ r, routeStoredShape (normalizeRoute r)) ∧
    (∀ st view idx rt, snapshotSelectionForSetlist st view idx = some rt →
      rt.channel.isSome = true) ∧
    (∀ d sid name routes fid, storeStoredShape d →
      storeStoredShape (addEntry d sid name routes fid).2) ∧
    (∀ d sid eid route, storeStoredShape d →
      storeStoredShape (upsertRoute d sid eid route).2) := by
  have hnorm : ∀ r, routeStoredShape (normalizeRoute r) := fun r => ⟨rfl, rfl, rfl⟩
  refine ⟨hnorm, ?_, ?_, ?_⟩
  · intro st view idx rt h
    unfold snapshotSelectionForSetlist at h
    repeat' split at h
    all_goals try cases h
    all_goals try simp only [] at h
    all_goals repeat' split at h
    all_goals try cases h
    all_goals rfl
  · intro d sid name routes fid hd
    unfold addEntry
    cases hfs : storeGetById d sid with
    | none => exact hd
    | some s0 =>
      intro s hs e he r hr
      rcases mem_updateFirst _ _ _ s hs with h1 | ⟨y, hy, h1⟩
      · exact hd s h1 e he r hr
      · subst h1
        rcases List.mem_append.mp he with h2 | h2
        · exact hd y hy e h2 r hr
        · rcases List.mem_singleton.mp h2 with rfl
          rcases List.mem_map.mp hr with ⟨r0, _, hr0⟩
          exact hr0 ▸ hnorm r0
  · intro d sid eid route hd
    cases hfe : storeGetEntry d sid eid with
    | none =>
      have heq : upsertRoute d sid eid route = (false, d) := by
        unfold upsertRoute
        rw [hfe]
      rw [heq]
      exact hd
    | some e =>
      cases hmid : (normalizeRoute route).machineId with
      | none =>
        have heq : upsertRoute d sid eid route = (false, d) := by
          unfold upsertRoute
          rw [hfe]
          simp only [hmid]
        rw [heq]
        exact hd
      | some m =>
        have heq : upsertRoute d sid eid route
            = (true, setEntryRoutes d sid eid
                (upsertRoutes (normalizeRoute route) e.routes)) := by
          unfold upsertRoute
          rw [hfe]
          simp only [hmid]
        rw [heq]
        rcases storeGetEntry_mem d sid eid e hfe with ⟨sl, hsl, hesl⟩
        intro s hs e2 he2 r hr
        unfold setEntryRoutes at hs
        rcases mem_updateFirst (fun t => t.id == sid)
            (setRoutesInEntry eid (upsertRoutes (normalizeRoute route) e.routes))
            d.setlists s hs with h1 | ⟨y, hy, h1⟩
        · exact hd s h1 e2 he2 r hr
        · subst h1
          unfold setRoutesInEntry at he2
          rcases mem_updateFirst (fun t => t.id == eid)
              (fun t => { t with routes := upsertRoutes (normalizeRoute route) e.routes })
              y.entries e2 he2 with h2 | ⟨z, hz, h2⟩
          · exact hd y hy e2 h2 r hr
          · subst h2
            rcases mem_upsertRoutes _ r _ hr with h3 | h3 | ⟨w, hw, h3⟩
            · exact hd sl hsl e hesl r h3
            · exact h3 ▸ hnorm route
            · exact h3 ▸ ⟨rfl, rfl, rfl⟩

/-- The C10 setlist: one (empty) entry `e1`. -/
def c10setlist : Setlist :=
  { id := "s1", name := "SL", entries := [{ id := "e1", name := "E1", routes := [] }],
    hotkeys := [] }

/-- The C10 store. -/
def c10store : StoreData := { setlists := [c10setlist], activeId := some "s1" }

/-- The C10 active machine, on channel 3. -/
def c10machine : Machine :=
  { id := "mA", name := "MA", midnamFile := none, out := some "P", outSlot := none,
    channel := some 3 }

/-- The C10 catalog bank: one patch `P0` with program 7. -/
def c10bank : MBank :=
  { name := some "B0", msb := some 1, lsb := some 2,
    patches := [{ name := some "P0", program := some 7 }] }

/-- The C10 loaded midnam model: one bank with one patch. -/
def c10model : MidnamModel := { deviceName := "Dev", banks := [c10bank] }

/-- The C10 model state. -/
def c10state : ModelState :=
  { store := c10store, machines := [c10machine], activeMachineId := some "mA",
    ports := [], draft := [], currentEntryId := none, currentMenu := Menu.main,
    model := some c10model, bankIndex := 0, currentMidnamFile := some "dev.midnam" }

/-- The C10 browse view: bank mode with one selectable patch. -/
def c10view : View :=
  { mode := "bank", list := [ViewItem.patchItem { name := some "P0", program := some 7 }] }

/-- The draft snapshot the C10 state produces — note `channel := some 3`. -/
def c10snap : Route :=
  { emptyRoute with
      machineId := some "mA"
      midnamFile := some "dev.midnam"
      deviceName := some "Dev"
      bankName := some "B0"
      msb := some 1
      lsb := some 2
      program := some 7
      patchName := some "P0"
      channel := some 3 }

/-- Witness for C10: the concrete draft snapshot carries a channel, and both
`addEntry` and `upsertRoute` of that snapshot keep every stored route
channel-free. -/
theorem storedRoutes_have_no_channel_c10_witness :
    snapshotSelectionForSetlist c10state c10view 0 = some c10snap ∧
    c10snap.channel.isSome = true ∧
    storeStoredShape (addEntry c10store "s1" (some "E2") [c10snap] "e9").2 ∧
    storeStoredShape (upsertRoute c10store "s1" "e1" c10snap).2 := by
  refine ⟨by decide, ?_, ?_, ?_⟩
  · exact storedRoutes_have_no_channel_c10.2.1 c10state c10view 0 c10snap (by decide)
  · exact storedRoutes_have_no_channel_c10.2.2.1 c10store "s1" (some "E2") [c10snap] "e9"
      (by decide)
  · exact storedRoutes_have_no_channel_c10.2.2.2 c10store "s1" "e1" c10snap (by decide)

/-! ## C1 / C3 — recall dispatch -/

/-- `filter` distributes over `flatten`. -/
lemma filter_flatten (p : α → Bool) (L : List (List α)) :
    L.flatten.filter p = (L.map (fun l => l.filter p)).flatten := by
  induction L with
  | nil => rfl
  | cons l ls ih => simp [List.filter_append, ih]

/-- When each block is empty exactly when its flag holds (else a singleton),
the flattened length plus the flagged count is the list length. -/
lemma length_flatten_add_count (L : List α) (g : α → List β) (p : α → Bool)
    (h : ∀ r ∈ L, (g r).length = if p r then 0 else 1) :
    (L.map g).flatten.length + (L.filter p).length = L.length := by
  induction L with
  | nil => rfl
  | cons x xs ih =>
    have hx := h x (List.mem_cons_self x xs)
    have ih2 := ih (fun r hr => h r (List.mem_cons_of_mem x hr))
    by_cases px : p x = true
    · rw [List.map_cons, List.flatten_cons, List.length_append, List.filter_cons, if_pos px]
      rw [if_pos px] at hx
      simp only [List.length_cons]
      omega
    · rw [List.map_cons, List.flatten_cons, List.length_append, List.filter_cons, if_neg px]
      rw [if_neg px] at hx
      simp only [List.length_cons]
      omega

/-- Every attempt produced by the CC helper targets the given machine and is
a CC send, not a patch dispatch. -/
lemma sendRouteCCSlots_all_ctrl (m : Machine) (slots : Option (List (Option CC))) :
    ∀ a ∈ sendRouteCCSlots m slots, a.machId = m.id ∧ a.isPatch = false := by
  intro a ha
  cases slots with
  | none => simp [sendRouteCCSlots] at ha
  | some l =>
    simp only [sendRouteCCSlots] at ha
    by_cases hl : l.isEmpty
    · rw [if_pos hl] at ha
      simp at ha
    · rw [if_neg hl] at ha
      rcases List.mem_filterMap.mp ha with ⟨o, _, ho⟩
      cases o with
      | none => cases ho
      | some c =>
        simp only [Option.map_some'] at ho
        injection ho with ho2
        exact ho2 ▸ ⟨rfl, rfl⟩

/-- The CC helper contributes nothing to the patch-dispatch count. -/
lemma sendRouteCCSlots_filter_patch (m : Machine) (slots : Option (List (Option CC))) :
    (sendRouteCCSlots m slots).filter Attempt.isPatch = [] := by
  rw [List.filter_eq_nil_iff]
  intro a ha
  simp [(sendRouteCCSlots_all_ctrl m slots a ha).2]

/-- Per-route dispatch count: a machine-resolvable route with a program
dispatches `sendPatch` exactly once unless its output is unresolvable. -/
lemma recallRoute_patch_count (io : MidiEnv) (st : ModelState) (r : Route)
    (hm : (routeMachine st r).isSome = true) (hp : r.program.isSome = true) :
    ((recallRoute io st r).attempts.filter Attempt.isPatch).length
      = if routeOut st r = none then 0 else 1 := by
  rcases Option.isSome_iff_exists.mp hm with ⟨mach, hmach⟩
  rcases Option.isSome_iff_exists.mp hp with ⟨prog, hprog⟩
  have hro : routeOut st r = resolveMachineOut st mach := by
    unfold routeOut
    rw [hmach]
    rfl
  cases hout : resolveMachineOut st mach with
  | none =>
    simp only [recallRoute, hmach, hprog, hout]
    rw [hro, hout]
    simp
  | some out =>
    rw [hro, hout]
    simp only [recallRoute, hmach, hprog, hout]
    split
    · simp [Attempt.isPatch]
    · rw [List.filter_cons]
      simp [Attempt.isPatch, sendRouteCCSlots_filter_patch]

/-- A resolvable route whose output does not resolve: no attempt, no error,
a warning line. -/
lemma recallRoute_warn (io : MidiEnv) (st : ModelState) (r : Route)
    (hm : (routeMachine st r).isSome = true) (hp : r.program.isSome = true)
    (hout : routeOut st r = none) :
    (recallRoute io st r).attempts = [] ∧ (recallRoute io st r).errors = [] ∧
      (recallRoute io st r).lines ≠ [] := by
  rcases Option.isSome_iff_exists.mp hm with ⟨mach, hmach⟩
  rcases Option.isSome_iff_exists.mp hp with ⟨prog, hprog⟩
  have hro : resolveMachineOut st mach = none := by
    rw [show routeOut st r = resolveMachineOut st mach from by
      unfold routeOut; rw [hmach]; rfl] at hout
    exact hout
  refine ⟨?_, ?_, ?_⟩ <;> simp [recallRoute, hmach, hprog, hro]

/-- `recallEntry`'s accumulators are the per-route accumulators in array
order, and `ok` holds exactly when no error was collected. -/
lemma recallEntry_unfold (io : MidiEnv) (st : ModelState) (eid : String)
    (s : Setlist) (e : Entry)
    (hs : storeGetActive st.store = some s)
    (he : storeGetEntry st.store s.id eid = some e) :
    (recallEntry io st eid).errors
        = (e.routes.map (fun r => (recallRoute io st r).errors)).flatten ∧
    (recallEntry io st eid).attempts
        = (e.routes.map (fun r => (recallRoute io st r).attempts)).flatten ∧
    ((recallEntry io st eid).ok = true ↔ (recallEntry io st eid).errors = []) := by
  simp only [recallEntry, hs, he]
  by_cases hemp :
      (((e.routes.map (recallRoute io st)).map (fun o => o.errors)).flatten).isEmpty = true
  · rw [if_pos hemp]
    refine ⟨?_, ?_, ?_⟩
    · show ((e.routes.map (recallRoute io st)).map (fun o => o.errors)).flatten = _
      rw [List.map_map]
      rfl
    · show ((e.routes.map (recallRoute io st)).map (fun o => o.attempts)).flatten = _
      rw [List.map_map]
      rfl
    · constructor
      · intro _
        show ((e.routes.map (recallRoute io st)).map (fun o => o.errors)).flatten = []
        exact List.isEmpty_iff.mp hemp
      · intro _
        rfl
  · rw [if_neg hemp]
    refine ⟨?_, ?_, ?_⟩
    · show ((e.routes.map (recallRoute io st)).map (fun o => o.errors)).flatten = _
      rw [List.map_map]
      rfl
    · show ((e.routes.map (recallRoute io st)).map (fun o => o.attempts)).flatten = _
      rw [List.map_map]
      rfl
    · constructor
      · intro hcon
        exact absurd hcon Bool.false_ne_true
      · intro hcon
        have hnil : ((e.routes.map (recallRoute io st)).map (fun o => o.errors)).flatten
            = [] := hcon
        rw [hnil] at hemp
        exact absurd rfl hemp

/-- C1: under an active setlist, for an entry whose routes all resolve a
machine and carry a program, `recallEntry` returns `ok` exactly when its
collected error list is empty, performs its `sendPatch` attempts in route
array order, makes exactly `N - M` of them when `M` of the `N` routes have
an unresolvable output (`M < N`), and for each output-unresolvable route
records a warning line (no error) and continues.  The embedding is a total
function — every per-route dispatch exception is an `Except.error` of the
oracle, caught in the route body — so the call never raises.  (Claim C1.) -/
theorem recallEntry_partial_failure_c1 (io : MidiEnv) (st : ModelState) (eid : String)
    (s : Setlist) (e : Entry)
    (hs : storeGetActive st.store = some s)
    (he : storeGetEntry st.store s.id eid = some e)
    (hres : ∀ r ∈ e.routes, (routeMachine st r).isSome = true ∧ r.program.isSome = true)
    (_hM : (e.routes.filter (fun r => routeOut st r == none)).length < e.routes.length) :
    ((recallEntry io st eid).ok = true ↔ (recallEntry io st eid).errors = []) ∧
    (recallEntry io st eid).attempts.filter Attempt.isPatch
      = (e.routes.map (fun r => (recallRoute io st r).attempts.filter Attempt.isPatch)).flatten ∧
    ((recallEntry io st eid).attempts.filter Attempt.isPatch).length
        + (e.routes.filter (fun r => routeOut st r == none)).length = e.routes.length ∧
    (∀ r ∈ e.routes, routeOut st r = none →
      (recallRoute io st r).attempts = [] ∧ (recallRoute io st r).errors = [] ∧
        (recallRoute io st r).lines ≠ []) := by
  obtain ⟨herr, hatt, hok⟩ := recallEntry_unfold io st eid s e hs he
  have hfil : (recallEntry io st eid).attempts.filter Attempt.isPatch
      = (e.routes.map (fun r => (recallRoute io st r).attempts.filter Attempt.isPatch)).flatten := by
    rw [hatt, filter_flatten, List.map_map]
    rfl
  refine ⟨hok, hfil, ?_, ?_⟩
  · rw [hfil]
    exact length_flatten_add_count e.routes
      (fun r => (recallRoute io st r).attempts.filter Attempt.isPatch)
      (fun r => routeOut st r == none)
      (fun r hr => by
        rw [recallRoute_patch_count io st r (hres r hr).1 (hres r hr).2]
        by_cases h : routeOut st r = none
        · simp [h]
        · simp [h])
  · intro r hr hro
    exact recallRoute_warn io st r (hres r hr).1 (hres r hr).2 hro

/-- C3 (amended): `recallRoute` — the per-route body of `recallEntry` —
resolves the machine as `getById(machineId) || getActive()`.  Only when
*neither* resolves does the route record the "Machine inconnue" error with
no dispatch; whenever a machine resolves (by id or through the
active-machine fallback), every dispatch attempt of the route targets that
machine.  (Claim C3, amended.) -/
theorem recallRoute_machine_fallback_c3 (io : MidiEnv) (st : ModelState) (r : Route) :
    (routeMachine st r = none →
      (recallRoute io st r).attempts = [] ∧
      (recallRoute io st r).errors = ["Machine inconnue: " ++ r.machineId.getD "null"]) ∧
    (∀ m, routeMachine st r = some m →
      ∀ a ∈ (recallRoute io st r).attempts, a.machId = m.id) := by
  constructor
  · intro hm
    refine ⟨?_, ?_⟩ <;> simp [recallRoute, hm]
  · intro m hm a ha
    simp only [recallRoute, hm] at ha
    cases hp : r.program with
    | none =>
      simp only [hp] at ha
      simp at ha
    | some prog =>
      simp only [hp] at ha
      cases hout : resolveMachineOut st m with
      | none =>
        simp only [hout] at ha
        simp at ha
      | some out =>
        simp only [hout] at ha
        split at ha
        · rcases List.mem_singleton.mp ha with rfl
          rfl
        · rcases List.mem_cons.mp ha with h | h
          · rw [h]
            rfl
          · exact (sendRouteCCSlots_all_ctrl { m with out := some out } r.ccSlots a h).1

/-- The C1 oracle: dispatch to machine `m3` raises, everything else
succeeds. -/
def c1io : MidiEnv :=
  { sendPatch := fun mach _ _ =>
      if mach.id = "m3" then Except.error "boom" else Except.ok "sent",
    sendCC := fun _ _ _ => Except.ok () }

/-- The C1 machines: `m1` resolves its output through slot 1, `m2` points
at slot 5 whose port is unset (and has no legacy `out`) so its output is
unresolvable, `m3` has a legacy direct output (but a raising driver). -/
def c1machines : List Machine :=
  [{ id := "m1", name := "M1", midnamFile := none, out := none, outSlot := some 1,
     channel := some 1 },
   { id := "m2", name := "M2", midnamFile := none, out := none, outSlot := some 5,
     channel := some 2 },
   { id := "m3", name := "M3", midnamFile := none, out := some "P3", outSlot := none,
     channel := some 3 }]

/-- The C1 midiports slots: slot 1 is wired to "P1", slot 5 is unset. -/
def c1ports : List PortSlot :=
  [{ slot := 1, label := some "L1", port := some "P1" },
   { slot := 5, label := none, port := none }]

/-- The first C1 route: machine `m1`, program 10, one CC slot. -/
def c1r1 : Route :=
  { emptyRoute with
      machineId := some "m1"
      program := some 10
      ccSlots := some [some ⟨1, 2⟩] }

/-- The C1 entry: three routes (N = 3), one with an unresolvable output
(M = 1). -/
def c1entry : Entry :=
  { id := "e1", name := "E1",
    routes := [c1r1,
      { emptyRoute with machineId := some "m2", program := some 11 },
      { emptyRoute with machineId := some "m3", program := some 12 }] }

/-- The C1 setlist. -/
def c1setlist : Setlist := { id := "s1", name := "SL", entries := [c1entry], hotkeys := [] }

/-- The C1 model state. -/
def c1state : ModelState :=
  { store := { setlists := [c1setlist], activeId := some "s1" }, machines := c1machines,
    activeMachineId := none, ports := c1ports, draft := [], currentEntryId := none,
    currentMenu := Menu.main, model := none, bankIndex := 0, currentMidnamFile := none }

/-- Witness for C1 with N = 3 routes, M = 1 unresolvable output and one
raising dispatch: exactly N − M = 2 `sendPatch` attempts, and the recall
reports `ok = false` precisely because its error list is non-empty. -/
theorem recallEntry_partial_failure_c1_witness :
    ((recallEntry c1io c1state "e1").ok = true ↔ (recallEntry c1io c1state "e1").errors = []) ∧
    ((recallEntry c1io c1state "e1").attempts.filter Attempt.isPatch).length
        + (c1entry.routes.filter (fun r => routeOut c1state r == none)).length
        = c1entry.routes.length ∧
    ((recallEntry c1io c1state "e1").attempts.filter Attempt.isPatch).length = 2 ∧
    (c1entry.routes.filter (fun r => routeOut c1state r == none)).length = 1 ∧
    (recallEntry c1io c1state "e1").ok = false := by
  have h := recallEntry_partial_failure_c1 c1io c1state "e1" c1setlist c1entry (by decide)
    (by decide) (by decide) (by decide)
  exact ⟨h.1, h.2.2.1, by decide, by decide, by decide⟩

/-- The C3 oracle: every dispatch succeeds. -/
def c3io : MidiEnv :=
  { sendPatch := fun _ _ _ => Except.ok "sent", sendCC := fun _ _ _ => Except.ok () }

/-- The C3 active machine `m1`. -/
def c3machine : Machine :=
  { id := "m1", name := "M1", midnamFile := none, out := some "P", outSlot := none,
    channel := some 1 }

/-- The C3 route pointing at a machine id that does not exist. -/
def c3ghost : Route := { emptyRoute with machineId := some "ghost", program := some 5 }

/-- The C3 entry holding only the ghost route. -/
def c3entry : Entry := { id := "e1", name := "E1", routes := [c3ghost] }

/-- The C3 setlist. -/
def c3setlist : Setlist := { id := "s1", name := "SL", entries := [c3entry], hotkeys := [] }

/-- The C3 model state: machine `m1` exists and is active; no machine has id
"ghost". -/
def c3state : ModelState :=
  { store := { setlists := [c3setlist], activeId := some "s1" },
    machines := [c3machine], activeMachineId := some "m1", ports := [], draft := [],
    currentEntryId := none, currentMenu := Menu.main, model := none, bankIndex := 0,
    currentMidnamFile := none }

/-- Counterexample to C3 as stated: the entry's only route names the
unknown machine "ghost", yet `recallEntry` performs one `sendPatch`
dispatch (through the currently active machine `m1`) and records no error
— instead of skipping the route and recording an error. -/
theorem recallRoute_machine_fallback_c3_cex :
    machGetById c3state.machines "ghost" = none ∧
    (recallEntry c3io c3state "e1").errors = [] ∧
    ((recallEntry c3io c3state "e1").attempts.filter Attempt.isPatch).length = 1 ∧
    (recallEntry c3io c3state "e1").ok = true ∧
    (∀ a ∈ (recallEntry c3io c3state "e1").attempts, a.machId = "m1") := by
  exact ⟨by decide, by decide, by decide, by decide, by decide⟩

/-- The C3 state with no machines at all (so even the fallback fails). -/
def c3empty : ModelState := { c3state with machines := [], activeMachineId := none }

/-- Witness for the amended C3: with no machine resolvable the route yields
no attempt and the "Machine inconnue" error; with the fallback machine
resolved, every attempt targets it. -/
theorem recallRoute_machine_fallback_c3_witness :
    ((recallRoute c3io c3empty c3ghost).attempts = [] ∧
      (recallRoute c3io c3empty c3ghost).errors
        = ["Machine inconnue: " ++ c3ghost.machineId.getD "null"]) ∧
    (∀ a ∈ (recallRoute c3io c3state c3ghost).attempts, a.machId = c3machine.id) := by
  refine ⟨(recallRoute_machine_fallback_c3 c3io c3empty c3ghost).1 (by decide), ?_⟩
  exact fun a ha =>
    (recallRoute_machine_fallback_c3 c3io c3state c3ghost).2 c3machine (by decide) a ha

/-! ## C5 — remote menu state machine -/

/-- One F8 press only toggles the menu mode (the power-to-main branch needs
an active setlist, which it re-displays). -/
lemma triggerFunctionKey_f8_state (io : MidiEnv) (st : ModelState) (s : Setlist)
    (hs : storeGetActive st.store = some s) :
    (triggerFunctionKey io st 8).map KeyOut.state
      = some { st with currentMenu :=
          if st.currentMenu = Menu.main then Menu.power else Menu.main } := by
  cases hmenu : st.currentMenu with
  | main => simp [triggerFunctionKey, hmenu]
  | power => simp [triggerFunctionKey, hmenu, hs]

/-- `n` F8 presses flip the menu iff `n` is odd, and change nothing else. -/
lemma iterF8_menu (io : MidiEnv) (n : Nat) (st : ModelState) (s : Setlist)
    (hs : storeGetActive st.store = some s) :
    iterF8 io n st = some { st with currentMenu :=
      if n % 2 = 0 then st.currentMenu
      else if st.currentMenu = Menu.main then Menu.power else Menu.main } := by
  induction n generalizing st with
  | zero => simp [iterF8]
  | succ n ih =>
    have hstep := triggerFunctionKey_f8_state io st s hs
    cases hr : triggerFunctionKey io st 8 with
    | none =>
      rw [hr] at hstep
      cases hstep
    | some r =>
      rw [hr] at hstep
      simp only [Option.map_some'] at hstep
      injection hstep with hstate
      simp only [iterF8, hr]
      have hs2 : storeGetActive r.state.store = some s := by
        rw [hstate]
        exact hs
      rw [ih r.state hs2, hstate]
      by_cases hn : n % 2 = 0
      · have h1 : (n + 1) % 2 = 1 := by omega
        cases hm : st.currentMenu <;> simp [hn, h1, hm]
      · have h1 : (n + 1) % 2 = 0 := by omega
        cases hm : st.currentMenu <;> simp [hn, h1, hm]

/-- C5: starting from `main`, repeated F8 presses toggle the menu strictly
`main → power → main → ...` while changing nothing else in the model state;
and every press of F1..F5 while the menu is `power` returns immediately —
no mode change, no pointer change, no stored-data change, no event, no
dispatch.  (Claim C5.) -/
theorem triggerFunctionKey_power_menu_c5 (io : MidiEnv) (st : ModelState) (s : Setlist)
    (hs : storeGetActive st.store = some s) (hmenu : st.currentMenu = Menu.main) :
    (∀ k ∈ ([1, 2, 3, 4, 5] : List Int), ∀ st2 : ModelState,
      st2.currentMenu = Menu.power → triggerFunctionKey io st2 k = some ⟨st2, [], []⟩) ∧
    (∀ n : Nat, iterF8 io n st
      = some { st with currentMenu := if n % 2 = 0 then Menu.main else Menu.power }) := by
  constructor
  · intro k hk st2 h2
    fin_cases hk <;> simp [triggerFunctionKey, h2]
  · intro n
    rw [iterF8_menu io n st s hs]
    simp [hmenu]

/-- The C5 oracle (never consulted by F8 or the guarded F1..F5). -/
def c5io : MidiEnv :=
  { sendPatch := fun _ _ _ => Except.ok "sent", sendCC := fun _ _ _ => Except.ok () }

/-- The C5 active setlist. -/
def c5setlist : Setlist := { id := "s1", name := "SL", entries := [], hotkeys := [] }

/-- The C5 model state, in `main` mode. -/
def c5state : ModelState :=
  { store := { setlists := [c5setlist], activeId := some "s1" }, machines := [],
    activeMachineId := none, ports := [], draft := [], currentEntryId := none,
    currentMenu := Menu.main, model := none, bankIndex := 0, currentMidnamFile := none }

/-- Witness for C5: F3 in power mode is a perfect no-op, two F8 presses are
back to `main`, one press is `power`. -/
theorem triggerFunctionKey_power_menu_c5_witness :
    triggerFunctionKey c5io { c5state with currentMenu := Menu.power } 3
      = some ⟨{ c5state with currentMenu := Menu.power }, [], []⟩ ∧
    iterF8 c5io 2 c5state = some { c5state with currentMenu := Menu.main } ∧
    iterF8 c5io 1 c5state = some { c5state with currentMenu := Menu.power } := by
  have h := triggerFunctionKey_power_menu_c5 c5io c5state c5setlist (by decide) (by decide)
  refine ⟨h.1 3 (by decide) { c5state with currentMenu := Menu.power } rfl, ?_, ?_⟩
  · exact h.2 2
  · exact h.2 1

/-! ## C2 — pasteDraftIntoEntry with composite machineId_channel keys -/

/-- The stored C2 route for `m1`. -/
def c2r1 : Route := { emptyRoute with machineId := some "m1", program := some 1 }

/-- The stored C2 route for `m2`. -/
def c2r2 : Route := { emptyRoute with machineId := some "m2", program := some 2 }

/-- The C2 draft snapshot for `m2` (conflicting machine), channel 1. -/
def c2d2 : Route :=
  { emptyRoute with
      machineId := some "m2"
      program := some 10
      channel := some 1
      deviceName := some "Dev"
      patchName := some "P" }

/-- The C2 draft snapshot for `m3` (new machine), channel 1. -/
def c2d3 : Route :=
  { emptyRoute with
      machineId := some "m3"
      program := some 11
      channel := some 1
      deviceName := some "Dev"
      patchName := some "P" }

/-- The C2 entry with routes for `m1` and `m2`. -/
def c2entry : Entry := { id := "e1", name := "E1", routes := [c2r1, c2r2] }

/-- The C2 setlist. -/
def c2setlist : Setlist := { id := "s1", name := "SL", entries := [c2entry], hotkeys := [] }

/-- The C2 model state with draft routes for `m2` and `m3`. -/
def c2state : ModelState :=
  { store := { setlists := [c2setlist], activeId := some "s1" }, machines := [],
    activeMachineId := none, ports := [], draft := [c2d2, c2d3], currentEntryId := none,
    currentMenu := Menu.main, model := none, bankIndex := 0, currentMidnamFile := none }

/-- The entry C2 expects after the forced paste: `m1` unchanged, `m2`
overwritten by the (normalized) draft route, `m3` added. -/
def c2after : Entry :=
  { id := "e1", name := "E1", routes := [c2r1, normalizeRoute c2d2, normalizeRoute c2d3] }

/-- C2 evaluation at the claim's own scenario (entry m1,m2; draft m2,m3):
without force the call refuses and mutates nothing, but `conflicts` holds
the composite key "m2_1", not "m2"; with force the entry ends up exactly as
the claim describes (m1 unchanged, m2 overwritten, m3 added), yet the
result reports `added:2, overwritten:0` because the force-path `had` test
looks up the bare machineId in the `machineId_channel` key set.
(Claim C2, code-bug evaluation.) -/
theorem pasteDraftIntoEntry_channelkey_c2 :
    (pasteDraftIntoEntry c2state "e1" false false).ok = false ∧
    (pasteDraftIntoEntry c2state "e1" false false).confirm = true ∧
    (pasteDraftIntoEntry c2state "e1" false false).conflicts = ["m2_1"] ∧
    (pasteDraftIntoEntry c2state "e1" false false).state = c2state ∧
    (pasteDraftIntoEntry c2state "e1" true false).ok = true ∧
    (pasteDraftIntoEntry c2state "e1" true false).added = 2 ∧
    (pasteDraftIntoEntry c2state "e1" true false).overwritten = 0 ∧
    storeGetEntry (pasteDraftIntoEntry c2state "e1" true false).state.store "s1" "e1"
      = some c2after := by
  exact ⟨by decide, by decide, by decide, by decide, by decide, by decide, by decide,
    by decide⟩

/-! ## C6 — display commands and the idle / off timers -/

/-- The C6 remote-link state: deep sleep enabled, both timers armed at
stale deadlines. -/
def c6state : RemoteState :=
  { queue := [], disabled := false, sleeping := false, vfdoff := false,
    activeBrightness := 3, sleepBrightness := 1, idleDelay := 90000,
    powerOffDelayOffset := 3600, deepSleepEnabled := true,
    idleDeadline := some 50, offDeadline := some 99 }

/-- C6 evaluation: `setIntlFont` and `setCharTable` enqueue their command
yet leave both the idle and the off deadline stale, while `clearVFD` and
the inbound keypress handler re-arm them — so not every outbound command
path resets the timers.  (Claim C6, code-bug evaluation.) -/
theorem remoteCommands_reset_timers_c6 :
    (setIntlFont c6state 0).idleDeadline = some 50 ∧
    (setIntlFont c6state 0).offDeadline = some 99 ∧
    (setIntlFont c6state 0).queue = [[0x1B, 0x52, 0]] ∧
    (setCharTable c6state 0).idleDeadline = some 50 ∧
    (setCharTable c6state 0).offDeadline = some 99 ∧
    (setCharTable c6state 0).queue = [[0x1B, 0x74, 0]] ∧
    (clearVFD c6state 1000).idleDeadline = some 91000 ∧
    (clearVFD c6state 1000).offDeadline = some 3691000 ∧
    (remoteDeviceHandleLine c6state 1000 "A").1.idleDeadline = some 91000 ∧
    (remoteDeviceHandleLine c6state 1000 "A").1.offDeadline = some 3691000 := by
  exact ⟨by decide, by decide, by decide, by decide, by decide, by decide, by decide,
    by decide, by decide, by decide⟩

/-! ## C7 — inbound line handling on the remote link -/

/-- C7 (amended): the `RemoteControl` handler (remote.js) implements the
claim as stated — an alphabet first character becomes a keypress, any other
non-empty line is emitted whole as a raw event — while the `RemoteDevice`
handler (remoteDevice.js, the one wired to the model in midistage.js)
emits the upper-cased first character of *every* non-empty line as a
keypress, with no alphabet filter and no raw event.  In both handlers no
non-empty inbound line is silently dropped.  (Claim C7, amended.) -/
theorem remoteInbound_lines_c7 (line : String) (h : jsTrim line ≠ "") :
    (inAlphabet ((strFront (jsTrim line)).toUpper) = true →
      remoteControlParse line = some (InEvent.key ((strFront (jsTrim line)).toUpper))) ∧
    (inAlphabet ((strFront (jsTrim line)).toUpper) = false →
      remoteControlParse line = some (InEvent.raw (jsTrim line))) ∧
    remoteDeviceParse line = some ((strFront (jsTrim line)).toUpper) := by
  refine ⟨?_, ?_, ?_⟩
  · intro ha
    simp [remoteControlParse, h, ha]
  · intro ha
    simp [remoteControlParse, h, ha]
  · simp [remoteDeviceParse, h]

/-- Counterexample to C7 as stated: for the inbound line "zzz" — first
character outside A–H / 1–8 — the deployed `RemoteDevice` handler emits the
keypress 'Z' rather than a raw/unrecognized event (it has no raw event at
all); only the unused `RemoteControl` handler behaves as claimed. -/
theorem remoteInbound_lines_c7_cex :
    remoteDeviceParse "zzz" = some 'Z' ∧ inAlphabet 'Z' = false ∧
    remoteControlParse "zzz" = some (InEvent.raw "zzz") := by
  exact ⟨by decide, by decide, by decide⟩

/-- Witness for the amended C7 at concrete lines. -/
theorem remoteInbound_lines_c7_witness :
    remoteControlParse " a1\r" = some (InEvent.key 'A') ∧
    remoteControlParse "x9" = some (InEvent.raw "x9") ∧
    remoteDeviceParse "x9" = some 'X' := by
  have h1 := remoteInbound_lines_c7 " a1\r" (by decide)
  have h2 := remoteInbound_lines_c7 "x9" (by decide)
  exact ⟨h1.1 (by decide), h2.2.1 (by decide), h2.2.2⟩

end Midistage
